import Mathlib

/-!
Verification of the scratchpad note store (`views/models/models.go`).

The Go source is shallowly embedded: strings are lists of characters,
MongoDB object ids and timestamps are natural numbers, and the notes
collection together with the store's id generator and clock is an explicit
`DB` state threaded through the operations.  The MongoDB text engine
(`$text` / `$meta: textScore`) is delegated in the source, so queries are
parameterized by an abstract match predicate and score function.
-/

namespace Scratchpad

/-- Strings are modelled as lists of characters. -/
abbrev Str := List Char

/-- Whitespace characters recognised by Go `strings.TrimSpace` (ASCII model). -/
def isSpaceChar (c : Char) : Bool :=
  c = ' ' || c = '\t' || c = '\n' || c = '\x0b' || c = '\x0c' || c = '\r'

/-- Lowercase a single character (ASCII model of `unicode.ToLower`). -/
def lowerChar (c : Char) : Char :=
  match c with
  | 'A' => 'a' | 'B' => 'b' | 'C' => 'c' | 'D' => 'd' | 'E' => 'e' | 'F' => 'f'
  | 'G' => 'g' | 'H' => 'h' | 'I' => 'i' | 'J' => 'j' | 'K' => 'k' | 'L' => 'l'
  | 'M' => 'm' | 'N' => 'n' | 'O' => 'o' | 'P' => 'p' | 'Q' => 'q' | 'R' => 'r'
  | 'S' => 's' | 'T' => 't' | 'U' => 'u' | 'V' => 'v' | 'W' => 'w' | 'X' => 'x'
  | 'Y' => 'y' | 'Z' => 'z'
  | c => c

/-- Models `strings.ToLower`. -/
def toLowerStr (s : Str) : Str := s.map lowerChar

/-- Models `strings.TrimSpace`: drop leading and trailing whitespace. -/
def trimSpace (s : Str) : Str :=
  ((s.dropWhile isSpaceChar).reverse.dropWhile isSpaceChar).reverse

/-- Models `strings.ReplaceAll(s, " ", "-")`. -/
def hyphenate (s : Str) : Str := s.map (fun c => if c = ' ' then '-' else c)

/-- Category normalization performed by `Service.Create` (models.go:47-49):
lowercase the trimmed input, then replace every space with a hyphen. -/
def normalizeCategory (s : Str) : Str := hyphenate (toLowerStr (trimSpace s))

/-- A note document (models.go:722-729). -/
structure Note where
  id : Nat
  category : Str
  content : Str
  createdAt : Nat
  updatedAt : Nat
deriving DecidableEq

/-- Abbreviation needed because `List` is shadowed inside `Repo.List`
and `Service.List` declarations. -/
abbrev Notes := List Note

/-- The notes collection plus the id generator and clock owned by the store. -/
structure DB where
  notes : List Note
  nextId : Nat
  now : Nat
deriving DecidableEq

/-- Models `CreateNoteInput` (models.go:738-742). -/
structure CreateNoteInput where
  category : Str
  content : Str

/-- Models `SearchQuery` (models.go:744-752); `until` is a Lean keyword, hence `until_`. -/
structure SearchQuery where
  query : Str
  category : Str
  since : Option Nat
  until_ : Option Nat
  limit : Int
  offset : Int

/-- Models `ListQuery` (models.go:754-759). -/
structure ListQuery where
  category : Str
  limit : Int
  offset : Int

/-- Models `Repo.Insert` (models.go:176-186): the store assigns the id and both
timestamps, overwriting whatever the caller put in those fields. -/
def Repo.Insert (db : DB) (n : Note) : Note × DB :=
  let m : Note := { n with id := db.nextId, createdAt := db.now, updatedAt := db.now }
  (m, { notes := db.notes ++ [m], nextId := db.nextId + 1, now := db.now + 1 })

/-- Models `Repo.FindByID` (models.go:189-199). -/
def Repo.FindByID (db : DB) (id : Nat) : Except String Note :=
  match db.notes.find? (fun n => n.id == id) with
  | some n => Except.ok n
  | none => Except.error "note not found"

/-- Models `DeleteOne` on the `_id` filter: remove the first matching document. -/
def deleteFirst (id : Nat) : List Note → Option (List Note)
  | [] => none
  | n :: rest =>
    if n.id = id then some rest else (deleteFirst id rest).map (fun l => n :: l)

/-- Models `Repo.Delete` (models.go:353-362): `NotFound` when `DeletedCount` is zero. -/
def Repo.Delete (db : DB) (id : Nat) : Except String DB :=
  match deleteFirst id db.notes with
  | some l => Except.ok { db with notes := l }
  | none => Except.error "note not found"

/-- Sort order `created_at` descending (`SetSort` in List/GetRecent and in
Search without a text query). -/
def CreatedDesc (a b : Note) : Prop := b.createdAt ≤ a.createdAt

instance : DecidableRel CreatedDesc := fun a b =>
  inferInstanceAs (Decidable (b.createdAt ≤ a.createdAt))

/-- Sort order text score descending with `created_at` descending as tie-break
(`SetSort` in Search with a text query, models.go:274-277). -/
def RelDesc (score : Note → Nat) (a b : Note) : Prop :=
  score b < score a ∨ (score a = score b ∧ b.createdAt ≤ a.createdAt)

instance (score : Note → Nat) : DecidableRel (RelDesc score) := fun a b =>
  inferInstanceAs (Decidable (score b < score a ∨ (score a = score b ∧ b.createdAt ≤ a.createdAt)))

/-- Models `Repo.List` (models.go:202-231): optional category filter, `created_at`
descending sort, skip, limit with the two clamping steps of lines 208-213. -/
def Repo.List (db : DB) (q : ListQuery) : Notes :=
  let filtered := db.notes.filter (fun n => q.category.isEmpty || n.category == q.category)
  let limit := if q.limit ≤ 0 then (50 : Int) else q.limit
  let limit := if limit > 200 then (200 : Int) else limit
  ((filtered.insertionSort CreatedDesc).drop q.offset.toNat).take limit.toNat

/-- The find filter built by `Repo.Search` (models.go:235-257): optional text
predicate, exact category match, inclusive `created_at` range. -/
def matchesSearch (textMatch : Str → Str → Bool) (q : SearchQuery) (n : Note) : Bool :=
  (q.query.isEmpty || textMatch q.query n.content) &&
  (q.category.isEmpty || n.category == q.category) &&
  (match q.since with | some s => decide (s ≤ n.createdAt) | none => true) &&
  (match q.until_ with | some u => decide (n.createdAt ≤ u) | none => true)

/-- Models `Repo.Search` (models.go:234-291), parameterized by the text engine's
match predicate and relevance score. -/
def Repo.Search (textMatch : Str → Str → Bool) (score : Str → Note → Nat)
    (db : DB) (q : SearchQuery) : Notes :=
  let filtered := db.notes.filter (matchesSearch textMatch q)
  let limit := if q.limit ≤ 0 then (50 : Int) else q.limit
  let limit := if limit > 200 then (200 : Int) else limit
  let sorted := if q.query.isEmpty then filtered.insertionSort CreatedDesc
    else filtered.insertionSort (RelDesc (score q.query))
  (sorted.drop q.offset.toNat).take limit.toNat

/-- Models `Repo.GetRecent` (models.go:294-322): optional `since` lower bound,
`created_at` descending, limit clamped to default 20 and maximum 100; no skip. -/
def Repo.GetRecent (db : DB) (limit : Int) (since : Option Nat) : Notes :=
  let filtered := db.notes.filter
    (fun n => match since with | some s => decide (s ≤ n.createdAt) | none => true)
  let l := if limit ≤ 0 then (20 : Int) else limit
  let l := if l > 100 then (100 : Int) else l
  (filtered.insertionSort CreatedDesc).take l.toNat

/-- Models `Service.Create` (models.go:46-68).  The pair returns the store state so
that the error cases visibly leave it unchanged. -/
def Service.Create (db : DB) (input : CreateNoteInput) : Except String Note × DB :=
  let category := toLowerStr (trimSpace input.category)
  let category := hyphenate category
  if category.isEmpty then (Except.error "category is required", db)
  else if (trimSpace input.content).isEmpty then (Except.error "content is required", db)
  else
    let r := Repo.Insert db
      { id := 0, category := category, content := input.content, createdAt := 0, updatedAt := 0 }
    (Except.ok r.1, r.2)

/-- Models `Service.List` (models.go:80-82). -/
def Service.List (db : DB) (q : ListQuery) : Notes := Repo.List db q

/-- Models `Service.Search` (models.go:85-87). -/
def Service.Search (textMatch : Str → Str → Bool) (score : Str → Note → Nat)
    (db : DB) (q : SearchQuery) : Notes := Repo.Search textMatch score db q

/-- Models `Service.GetRecent` (models.go:90-92): forwards only `q.Limit` and `q.Since`. -/
def Service.GetRecent (db : DB) (q : SearchQuery) : Notes :=
  Repo.GetRecent db q.limit q.since

/-- ASCII digit test. -/
def isDigit (c : Char) : Bool := '0' ≤ c && c ≤ '9'

/-- Numeric value of an ASCII digit. -/
def digitVal (c : Char) : Nat := c.toNat - 48

/-- Gregorian leap-year rule, as validated by Go `time.Parse`. -/
def isLeapYear (y : Nat) : Bool := y % 4 == 0 && (y % 100 != 0 || y % 400 == 0)

/-- Days in a month, as validated by Go `time.Parse`. -/
def daysInMonth (y m : Nat) : Nat :=
  if m = 2 then (if isLeapYear y then 29 else 28)
  else if m = 4 || m = 6 || m = 9 || m = 11 then 30 else 31

/-- Abstract encoding of a calendar date as a timestamp in seconds; the
concrete epoch arithmetic of `time.Time` is irrelevant to the claims. -/
def dateStamp (y m d : Nat) : Nat := (y * 372 + (m - 1) * 31 + (d - 1)) * 86400

/-- Models `time.Parse("2006-01-02", s)`: exactly `YYYY-MM-DD` with the month
and day ranges Go validates; anything else fails. -/
def parseYMD (s : Str) : Option Nat :=
  match s with
  | [y1, y2, y3, y4, '-', m1, m2, '-', d1, d2] =>
    if isDigit y1 && isDigit y2 && isDigit y3 && isDigit y4 &&
        isDigit m1 && isDigit m2 && isDigit d1 && isDigit d2 then
      let y := ((digitVal y1 * 10 + digitVal y2) * 10 + digitVal y3) * 10 + digitVal y4
      let m := digitVal m1 * 10 + digitVal m2
      let d := digitVal d1 * 10 + digitVal d2
      if decide (1 ≤ m) && decide (m ≤ 12) && decide (1 ≤ d) && decide (d ≤ daysInMonth y m)
      then some (dateStamp y m d) else none
    else none
  | _ => none

/-- The tail of an RFC 3339 string after the seconds field: an optional
fractional part followed by `Z` or a `±hh:mm` offset. -/
def validFracZone (s : Str) : Bool :=
  let zone := match s with
    | '.' :: t => if (t.takeWhile isDigit).isEmpty then none else some (t.dropWhile isDigit)
    | t => some t
  match zone with
  | none => false
  | some ['Z'] => true
  | some [sign, h1, h2, ':', n1, n2] =>
    (sign = '+' || sign = '-') && isDigit h1 && isDigit h2 && isDigit n1 && isDigit n2 &&
    decide (digitVal h1 * 10 + digitVal h2 ≤ 23) && decide (digitVal n1 * 10 + digitVal n2 ≤ 59)
  | some _ => false

/-- Models `time.Parse(time.RFC3339, s)` (ASCII model; the zone offset is not
folded into the abstract timestamp). -/
def parseRFC3339 (s : Str) : Option Nat :=
  match s with
  | y1 :: y2 :: y3 :: y4 :: '-' :: m1 :: m2 :: '-' :: d1 :: d2 :: 'T' ::
      h1 :: h2 :: ':' :: n1 :: n2 :: ':' :: s1 :: s2 :: rest =>
    match parseYMD [y1, y2, y3, y4, '-', m1, m2, '-', d1, d2] with
    | none => none
    | some day =>
      if isDigit h1 && isDigit h2 && isDigit n1 && isDigit n2 && isDigit s1 && isDigit s2 then
        let hh := digitVal h1 * 10 + digitVal h2
        let mm := digitVal n1 * 10 + digitVal n2
        let ss := digitVal s1 * 10 + digitVal s2
        if decide (hh ≤ 23) && decide (mm ≤ 59) && decide (ss ≤ 59) && validFracZone rest then
          some (day + hh * 3600 + mm * 60 + ss)
        else none
      else none
  | _ => none

/-- Models `parseDate` (models.go:1034-1048): RFC 3339 first, then `YYYY-MM-DD`. -/
def parseDate (s : Str) : Option Nat :=
  match parseRFC3339 s with
  | some t => some t
  | none => parseYMD s

/-- Digit run accepted by `strconv.Atoi` (integer width is not modelled). -/
def parseNatDigits (s : Str) : Option Nat :=
  if s.isEmpty || !(s.all isDigit) then none
  else some (s.foldl (fun acc c => acc * 10 + digitVal c) 0)

/-- Models `strconv.Atoi`: optional sign then one or more digits. -/
def atoi (s : Str) : Option Int :=
  match s with
  | '+' :: t => (parseNatDigits t).map (fun n => (n : Int))
  | '-' :: t => (parseNatDigits t).map (fun n => -(n : Int))
  | t => (parseNatDigits t).map (fun n => (n : Int))

/-- Models `Handler.parseInt` (models.go:548-557). -/
def Handler.parseInt (s : Str) (dflt : Int) : Int :=
  if s.isEmpty then dflt
  else match atoi s with
  | some v => v
  | none => dflt

/-- Raw query parameters of `GET /api/notes/search`; `[]` means absent. -/
structure HttpSearchReq where
  q : Str
  category : Str
  limit : Str
  offset : Str
  since : Str
  until_ : Str

/-- Models `Handler.SearchNotes` (models.go:462-498): `since`/`until` are parsed as
RFC 3339 then as `2006-01-02`; a string failing both is silently dropped. -/
def Handler.SearchNotes (textMatch : Str → Str → Bool) (score : Str → Note → Nat)
    (db : DB) (r : HttpSearchReq) : Notes :=
  let since := if r.since.isEmpty then none
    else match parseRFC3339 r.since with
      | some t => some t
      | none => parseYMD r.since
  let untl := if r.until_.isEmpty then none
    else match parseRFC3339 r.until_ with
      | some t => some t
      | none => parseYMD r.until_
  Service.Search textMatch score db
    { query := r.q, category := r.category, since := since, until_ := untl,
      limit := Handler.parseInt r.limit 50, offset := Handler.parseInt r.offset 0 }

/-- Raw query parameters of `GET /fragments/search`. -/
structure HttpFragmentReq where
  q : Str
  category : Str
  limit : Str
  since : Str
  until_ : Str

/-- Models `Handler.SearchFragment` (models.go:676-712): dates are parsed with the
`2006-01-02` layout only; a string failing it is silently dropped. -/
def Handler.SearchFragment (textMatch : Str → Str → Bool) (score : Str → Note → Nat)
    (db : DB) (r : HttpFragmentReq) : Notes :=
  let since := if r.since.isEmpty then none else parseYMD r.since
  let untl := if r.until_.isEmpty then none else parseYMD r.until_
  Service.Search textMatch score db
    { query := r.q, category := r.category, since := since, until_ := untl,
      limit := Handler.parseInt r.limit 50, offset := 0 }

/-- Arguments of the `search_notes` MCP tool; `none` means absent. -/
structure McpSearchReq where
  query : Option Str
  category : Str
  since : Str
  until_ : Str
  limit : Option Int

/-- Models `handleSearchNotes` (models.go:925-965): an unparseable `since`/`until`
produces an error tool result instead of being ignored. -/
def handleSearchNotes (textMatch : Str → Str → Bool) (score : Str → Note → Nat)
    (db : DB) (req : McpSearchReq) : Except String Notes :=
  match req.query with
  | none => Except.error "query is required"
  | some query =>
    match (if req.since.isEmpty then Except.ok (none : Option Nat)
      else match parseDate req.since with
        | some t => Except.ok (some t)
        | none =>
          Except.error "invalid 'since' date format: expected YYYY-MM-DD or RFC3339 format") with
    | Except.error e => Except.error e
    | Except.ok since =>
      match (if req.until_.isEmpty then Except.ok (none : Option Nat)
        else match parseDate req.until_ with
          | some t => Except.ok (some t)
          | none =>
            Except.error "invalid 'until' date format: expected YYYY-MM-DD or RFC3339 format") with
      | Except.error e => Except.error e
      | Except.ok untl =>
        Except.ok (Service.Search textMatch score db
          { query := query, category := req.category, since := since, until_ := untl,
            limit := req.limit.getD 50, offset := 0 })

/-- Arguments of the `get_recent_notes` MCP tool. -/
structure McpRecentReq where
  limit : Option Int
  since : Str

/-- Models `handleGetRecentNotes` (models.go:967-991): an unparseable `since`
produces an error tool result instead of being ignored. -/
def handleGetRecentNotes (db : DB) (req : McpRecentReq) : Except String Notes :=
  match (if req.since.isEmpty then Except.ok (none : Option Nat)
    else match parseDate req.since with
      | some t => Except.ok (some t)
      | none =>
        Except.error "invalid 'since' date format: expected YYYY-MM-DD or RFC3339 format") with
  | Except.error e => Except.error e
  | Except.ok since =>
    Except.ok (Service.GetRecent db
      { query := [], category := [], since := since, until_ := none,
        limit := req.limit.getD 20, offset := 0 })

/-- Store invariant: every persisted note has a non-empty category and
content, equal timestamps, and an id below the generator; ids are unique. -/
def DB.WF (db : DB) : Prop :=
  (∀ n ∈ db.notes, n.category ≠ [] ∧ n.content ≠ [] ∧ n.createdAt = n.updatedAt ∧
    n.id < db.nextId) ∧
  db.notes.Pairwise (fun a b => a.id ≠ b.id)

instance (db : DB) : Decidable db.WF := by
  unfold DB.WF; infer_instance

/-! ### Helper lemmas -/

theorem isSpaceChar_lowerChar (c : Char) : isSpaceChar (lowerChar c) = isSpaceChar c := by
  unfold lowerChar
  split <;> rfl

theorem trimSpace_toLowerStr (s : Str) : trimSpace (toLowerStr s) = toLowerStr (trimSpace s) := by
  have hf : isSpaceChar ∘ lowerChar = isSpaceChar := funext isSpaceChar_lowerChar
  unfold trimSpace toLowerStr
  rw [List.dropWhile_map, hf, ← List.map_reverse, List.dropWhile_map, hf, ← List.map_reverse]

theorem trimSpace_eq_nil {s : Str} (h : ∀ c ∈ s, isSpaceChar c = true) : trimSpace s = [] := by
  unfold trimSpace
  rw [List.dropWhile_eq_nil_iff.mpr (fun c hc => h c hc)]
  rfl

/-- What a successful `Service.Create` returns: the note carries the
normalized category, the verbatim content, and the store-assigned id and
timestamps, and the new state appends exactly that note. -/
theorem create_ok_spec (db : DB) (input : CreateNoteInput) (n : Note) (db' : DB)
    (h : Service.Create db input = (Except.ok n, db')) :
    n = { id := db.nextId, category := normalizeCategory input.category,
          content := input.content, createdAt := db.now, updatedAt := db.now } ∧
    db' = { notes := db.notes ++ [n], nextId := db.nextId + 1, now := db.now + 1 } ∧
    (normalizeCategory input.category).isEmpty = false ∧
    (trimSpace input.content).isEmpty = false := by
  unfold normalizeCategory
  simp only [Service.Create, Repo.Insert] at h
  split at h
  · simp at h
  · split at h
    · simp at h
    · rename_i hc1 hc2
      simp only [Prod.mk.injEq, Except.ok.injEq] at h
      obtain ⟨hn, hdb⟩ := h
      subst hn
      constructor
      · rfl
      refine ⟨hdb.symm, ?_, ?_⟩
      · exact Bool.eq_false_iff.mpr hc1
      · exact Bool.eq_false_iff.mpr hc2

/-- A failing `Service.Create` leaves the state unchanged. -/
theorem create_err_state (db : DB) (input : CreateNoteInput)
    (h : (Service.Create db input).1.isOk = false) : (Service.Create db input).2 = db := by
  by_cases h1 : (hyphenate (toLowerStr (trimSpace input.category))).isEmpty
  · simp [Service.Create, h1]
  · by_cases h2 : (trimSpace input.content).isEmpty
    · simp [Service.Create, h1, h2]
    · exfalso
      simp [Service.Create, h1, h2, Except.isOk, Except.toBool] at h

/-! ### C4 -/

/-- C4: Category normalization is the pure function that lowercases,
trims leading/trailing whitespace, and replaces spaces with hyphens (the
lowercasing and trimming steps commute, so the claim's order agrees with the
code's); inputs differing only in case or only in surrounding whitespace
normalize identically, and "  Twitter Analytics " and "twitter-analytics"
normalize to the same value. -/
theorem category_normalization :
    (∀ s : Str, normalizeCategory s = hyphenate (trimSpace (toLowerStr s))) ∧
    (∀ s t : Str, toLowerStr s = toLowerStr t →
      normalizeCategory s = normalizeCategory t) ∧
    (∀ s t : Str, trimSpace s = trimSpace t →
      normalizeCategory s = normalizeCategory t) ∧
    normalizeCategory "  Twitter Analytics ".data = normalizeCategory "twitter-analytics".data := by
  refine ⟨fun s => ?_, fun s t h => ?_, fun s t h => ?_, by decide⟩
  · unfold normalizeCategory
    rw [trimSpace_toLowerStr]
  · unfold normalizeCategory
    rw [← trimSpace_toLowerStr, ← trimSpace_toLowerStr, h]
  · unfold normalizeCategory
    rw [h]

/-- Witness for C4 at concrete inputs. -/
theorem category_normalization_witness :
    normalizeCategory "AbC".data = normalizeCategory "aBc".data ∧
    normalizeCategory "  x".data = normalizeCategory "x  ".data :=
  ⟨category_normalization.2.1 _ _ (by decide), category_normalization.2.2.1 _ _ (by decide)⟩

/-! ### Fixtures for witnesses -/

/-- A concrete note used in witness statements. -/
def wNoteA : Note := { id := 1, category := ['a'], content := ['x'], createdAt := 5, updatedAt := 5 }

/-- A concrete note used in witness statements. -/
def wNoteB : Note := { id := 2, category := ['b'], content := ['y'], createdAt := 9, updatedAt := 9 }

/-- A concrete store state used in witness statements. -/
def wDB : DB := { notes := [wNoteA, wNoteB], nextId := 3, now := 10 }

/-- A concrete text-match predicate standing in for the text engine. -/
def wMatch : Str → Str → Bool := fun _ _ => true

/-- A concrete relevance score standing in for the text engine. -/
def wScore : Str → Note → Nat := fun _ n => n.id % 2

/-- The note produced by creating content "  hi  " against `wDB`. -/
def wNoteC : Note :=
  { id := 3, category := ['a'], content := "  hi  ".data, createdAt := 10, updatedAt := 10 }

/-- The store state after creating `wNoteC` against `wDB`. -/
def wDBC : DB := { notes := [wNoteA, wNoteB, wNoteC], nextId := 4, now := 11 }

/-! ### C10 -/

/-- C10: the recent-notes operation reads only the `limit` and `since` fields
of its query descriptor; the `category`, text `query`, `until` and `offset`
fields never influence the result. -/
theorem getRecent_reads_only_limit_since (db : DB) (q q' : SearchQuery)
    (hl : q.limit = q'.limit) (hs : q.since = q'.since) :
    Service.GetRecent db q = Service.GetRecent db q' := by
  unfold Service.GetRecent
  rw [hl, hs]

/-- Witness for C10: two descriptors agreeing only on limit and since. -/
theorem getRecent_reads_only_limit_since_witness :
    Service.GetRecent wDB
        { query := ['x'], category := ['a'], since := some 3, until_ := some 9,
          limit := 7, offset := 4 } =
      Service.GetRecent wDB
        { query := [], category := [], since := some 3, until_ := none,
          limit := 7, offset := 0 } :=
  getRecent_reads_only_limit_since wDB _ _ rfl rfl

/-! ### C9 -/

/-- C9: for accepted creation inputs, the stored and returned content is the
caller's content verbatim (surrounding whitespace preserved); trimming serves
only the emptiness check. -/
theorem content_stored_verbatim (db : DB) (input : CreateNoteInput) (n : Note) (db' : DB)
    (h : Service.Create db input = (Except.ok n, db')) :
    n.content = input.content ∧ n ∈ db'.notes := by
  obtain ⟨hn, hdb, -, -⟩ := create_ok_spec db input n db' h
  constructor
  · rw [hn]
  · rw [hdb]
    exact List.mem_append_right _ (List.mem_singleton.mpr rfl)

/-- Witness for C9: content "  hi  " is stored with its whitespace intact. -/
theorem content_stored_verbatim_witness :
    wNoteC.content = "  hi  ".data ∧ wNoteC ∈ wDBC.notes :=
  content_stored_verbatim wDB { category := ['a'], content := "  hi  ".data } wNoteC wDBC rfl

/-! ### C5 -/

/-- C5: creation fails (with a validation error, persisting nothing) exactly
when the category is empty after normalization or the content is empty after
trimming; whitespace-only content always fails. -/
theorem create_validation (db : DB) (input : CreateNoteInput) :
    ((Service.Create db input).1.isOk = false ↔
      normalizeCategory input.category = [] ∨ trimSpace input.content = []) ∧
    ((Service.Create db input).1.isOk = false → (Service.Create db input).2 = db) ∧
    ((∀ c ∈ input.content, isSpaceChar c = true) → (Service.Create db input).1.isOk = false) := by
  refine ⟨?_, create_err_state db input, ?_⟩
  · unfold normalizeCategory
    simp only [Service.Create]
    split
    · rename_i hc
      simp only [Except.isOk, Except.toBool, List.isEmpty_iff.mp hc]
      simp
    · split
      · rename_i hc hw
        simp only [Except.isOk, Except.toBool, List.isEmpty_iff.mp hw]
        simp
      · rename_i hc hw
        simp only [Except.isOk, Except.toBool]
        simp only [List.isEmpty_iff] at hc hw
        simp [hc, hw]
  · intro hws
    have h0 : trimSpace input.content = [] := trimSpace_eq_nil hws
    simp only [Service.Create]
    split
    · rfl
    · rw [if_pos (List.isEmpty_iff.mpr h0)]
      rfl

/-- Witness for C5: whitespace-only content fails and persists nothing. -/
theorem create_validation_witness :
    ((Service.Create wDB { category := ['a'], content := [' ', '\t'] }).1.isOk = false ↔
      normalizeCategory ['a'] = [] ∨ trimSpace [' ', '\t'] = []) ∧
    ((Service.Create wDB { category := ['a'], content := [' ', '\t'] }).1.isOk = false →
      (Service.Create wDB { category := ['a'], content := [' ', '\t'] }).2 = wDB) ∧
    ((∀ c ∈ [' ', '\t'], isSpaceChar c = true) →
      (Service.Create wDB { category := ['a'], content := [' ', '\t'] }).1.isOk = false) :=
  create_validation wDB { category := ['a'], content := [' ', '\t'] }

/-! ### C2 -/

/-- The search filter does not read the limit field. -/
theorem matchesSearch_limit (tm : Str → Str → Bool) (q : SearchQuery) (l : Int) :
    matchesSearch tm { q with limit := l } = matchesSearch tm q := by
  funext n
  simp [matchesSearch]

/-- C2: list/search substitute 50 for `limit <= 0` and clamp to 200 above 200;
recent substitutes 20 and clamps to 100; consequently list/search/recent never
return more than 200/200/100 notes. -/
theorem limit_clamping :
    (∀ (db : DB) (q : ListQuery), q.limit ≤ 0 →
      Repo.List db q = Repo.List db { q with limit := 50 }) ∧
    (∀ (db : DB) (q : ListQuery), 200 < q.limit →
      Repo.List db q = Repo.List db { q with limit := 200 }) ∧
    (∀ (tm : Str → Str → Bool) (sc : Str → Note → Nat) (db : DB) (q : SearchQuery),
      q.limit ≤ 0 → Repo.Search tm sc db q = Repo.Search tm sc db { q with limit := 50 }) ∧
    (∀ (tm : Str → Str → Bool) (sc : Str → Note → Nat) (db : DB) (q : SearchQuery),
      200 < q.limit → Repo.Search tm sc db q = Repo.Search tm sc db { q with limit := 200 }) ∧
    (∀ (db : DB) (l : Int) (s : Option Nat), l ≤ 0 →
      Repo.GetRecent db l s = Repo.GetRecent db 20 s) ∧
    (∀ (db : DB) (l : Int) (s : Option Nat), 100 < l →
      Repo.GetRecent db l s = Repo.GetRecent db 100 s) ∧
    (∀ (db : DB) (q : ListQuery), (Repo.List db q).length ≤ 200) ∧
    (∀ (tm : Str → Str → Bool) (sc : Str → Note → Nat) (db : DB) (q : SearchQuery),
      (Repo.Search tm sc db q).length ≤ 200) ∧
    (∀ (db : DB) (l : Int) (s : Option Nat), (Repo.GetRecent db l s).length ≤ 100) := by
  refine ⟨fun db q h => ?_, fun db q h => ?_, fun tm sc db q h => ?_, fun tm sc db q h => ?_,
    fun db l s h => ?_, fun db l s h => ?_, fun db q => ?_, fun tm sc db q => ?_,
    fun db l s => ?_⟩
  · simp [Repo.List, h]
  · have h0 : ¬ q.limit ≤ 0 := by omega
    simp [Repo.List, h0, h]
  · simp [Repo.Search, matchesSearch_limit, h]
  · have h0 : ¬ q.limit ≤ 0 := by omega
    simp [Repo.Search, matchesSearch_limit, h0, h]
  · simp [Repo.GetRecent, h]
  · have h0 : ¬ l ≤ 0 := by omega
    simp [Repo.GetRecent, h0, h]
  · simp only [Repo.List]
    rw [List.length_take]
    refine le_trans (min_le_left _ _) ?_
    split_ifs <;> omega
  · simp only [Repo.Search]
    rw [List.length_take]
    refine le_trans (min_le_left _ _) ?_
    split_ifs <;> omega
  · simp only [Repo.GetRecent]
    rw [List.length_take]
    refine le_trans (min_le_left _ _) ?_
    split_ifs <;> omega

/-- Witness for C2 at concrete limits. -/
theorem limit_clamping_witness :
    (Repo.List wDB { category := [], limit := -3, offset := 0 } =
      Repo.List wDB { category := [], limit := 50, offset := 0 }) ∧
    (Repo.List wDB { category := [], limit := 500, offset := 0 } =
      Repo.List wDB { category := [], limit := 200, offset := 0 }) ∧
    (Repo.Search wMatch wScore wDB
        { query := ['x'], category := [], since := none, until_ := none, limit := 0, offset := 0 } =
      Repo.Search wMatch wScore wDB
        { query := ['x'], category := [], since := none, until_ := none, limit := 50, offset := 0 }) ∧
    (Repo.Search wMatch wScore wDB
        { query := ['x'], category := [], since := none, until_ := none, limit := 201, offset := 0 } =
      Repo.Search wMatch wScore wDB
        { query := ['x'], category := [], since := none, until_ := none, limit := 200, offset := 0 }) ∧
    (Repo.GetRecent wDB (-7) none = Repo.GetRecent wDB 20 none) ∧
    (Repo.GetRecent wDB 101 none = Repo.GetRecent wDB 100 none) :=
  ⟨limit_clamping.1 _ _ (by norm_num), limit_clamping.2.1 _ _ (by norm_num),
    limit_clamping.2.2.1 _ _ _ _ (by norm_num), limit_clamping.2.2.2.1 _ _ _ _ (by norm_num),
    limit_clamping.2.2.2.2.1 _ _ _ (by norm_num),
    limit_clamping.2.2.2.2.2.1 _ _ _ (by norm_num)⟩

/-! ### C1 -/

theorem createdDesc_trans : ∀ a b c : Note, CreatedDesc a b → CreatedDesc b c → CreatedDesc a c := by
  intro a b c hab hbc
  unfold CreatedDesc at *
  omega

theorem createdDesc_total : ∀ a b : Note, CreatedDesc a b ∨ CreatedDesc b a := by
  intro a b
  unfold CreatedDesc
  omega

instance : IsTrans Note CreatedDesc := ⟨createdDesc_trans⟩

instance : IsTotal Note CreatedDesc := ⟨createdDesc_total⟩

theorem relDesc_trans (score : Note → Nat) :
    ∀ a b c : Note, RelDesc score a b → RelDesc score b c → RelDesc score a c := by
  intro a b c hab hbc
  unfold RelDesc at *
  omega

theorem relDesc_total (score : Note → Nat) :
    ∀ a b : Note, RelDesc score a b ∨ RelDesc score b a := by
  intro a b
  unfold RelDesc
  omega

instance (score : Note → Nat) : IsTrans Note (RelDesc score) := ⟨relDesc_trans score⟩

instance (score : Note → Nat) : IsTotal Note (RelDesc score) := ⟨relDesc_total score⟩

/-- C1: search results with a non-empty text query are sorted by relevance
score descending with createdAt descending as tie-break; without a text query
they are sorted by createdAt descending only. -/
theorem search_ordering (tm : Str → Str → Bool) (sc : Str → Note → Nat)
    (db : DB) (q : SearchQuery) :
    (q.query ≠ [] → (Repo.Search tm sc db q).Sorted (RelDesc (sc q.query))) ∧
    (q.query = [] → (Repo.Search tm sc db q).Sorted CreatedDesc) := by
  constructor
  · intro h
    have he : q.query.isEmpty = false := List.isEmpty_eq_false.mpr h
    simp only [Repo.Search, he, Bool.false_eq_true, if_false]
    exact List.Pairwise.sublist ((List.take_sublist _ _).trans (List.drop_sublist _ _))
      (List.sorted_insertionSort _ _)
  · intro h
    have he : q.query.isEmpty = true := List.isEmpty_iff.mpr h
    simp only [Repo.Search, he, if_true]
    exact List.Pairwise.sublist ((List.take_sublist _ _).trans (List.drop_sublist _ _))
      (List.sorted_insertionSort _ _)

/-- Witness for C1: a text query and a no-text query against `wDB`. -/
theorem search_ordering_witness :
    (['x'] ≠ ([] : Str) ∧
      (Repo.Search wMatch wScore wDB
        { query := ['x'], category := [], since := none, until_ := none,
          limit := 0, offset := 0 }).Sorted (RelDesc (wScore ['x']))) ∧
    (([] : Str) = [] ∧
      (Repo.Search wMatch wScore wDB
        { query := [], category := [], since := none, until_ := none,
          limit := 0, offset := 0 }).Sorted CreatedDesc) :=
  ⟨⟨by decide, (search_ordering wMatch wScore wDB _).1 (by decide)⟩,
    ⟨rfl, (search_ordering wMatch wScore wDB _).2 rfl⟩⟩

/-! ### Delete helpers -/

theorem deleteFirst_none_iff (id : Nat) (l : List Note) :
    deleteFirst id l = none ↔ ∀ n ∈ l, n.id ≠ id := by
  induction l with
  | nil => simp [deleteFirst]
  | cons n rest ih =>
    simp only [deleteFirst]
    by_cases h : n.id = id
    · simp [h]
    · simp [h, Option.map_eq_none', ih, List.forall_mem_cons]

theorem deleteFirst_some_spec (id : Nat) :
    ∀ (l l' : List Note), deleteFirst id l = some l' →
      ∃ pre n post, l = pre ++ n :: post ∧ n.id = id ∧
        (∀ m ∈ pre, m.id ≠ id) ∧ l' = pre ++ post := by
  intro l
  induction l with
  | nil => intro l' h; simp [deleteFirst] at h
  | cons n rest ih =>
    intro l' h
    simp only [deleteFirst] at h
    by_cases hn : n.id = id
    · rw [if_pos hn] at h
      obtain rfl : rest = l' := by simpa using h
      exact ⟨[], n, rest, by simp, hn, by simp, by simp⟩
    · rw [if_neg hn] at h
      obtain ⟨l2, hl2, rfl⟩ : ∃ l2, deleteFirst id rest = some l2 ∧ l' = n :: l2 := by
        cases hd : deleteFirst id rest with
        | none => rw [hd] at h; simp at h
        | some x => rw [hd] at h; simp at h; exact ⟨x, rfl, h.symm⟩
      obtain ⟨pre, m, post, h1, h2, h3, h4⟩ := ih l2 hl2
      exact ⟨n :: pre, m, post, by simp [h1], h2,
        List.forall_mem_cons.mpr ⟨hn, h3⟩, by simp [h4]⟩

/-! ### C7 -/

/-- C7: delete fails with NotFound when no document matches; otherwise it
removes exactly one document, and a second delete of the same id (like any
delete of a never-existing id) yields NotFound. -/
theorem delete_semantics (db : DB) (id : Nat) (hwf : db.WF) :
    ((∀ n ∈ db.notes, n.id ≠ id) → Repo.Delete db id = Except.error "note not found") ∧
    ((∃ n ∈ db.notes, n.id = id) →
      ∃ db', Repo.Delete db id = Except.ok db' ∧
        db'.notes.length + 1 = db.notes.length ∧
        Repo.Delete db' id = Except.error "note not found") := by
  constructor
  · intro h
    unfold Repo.Delete
    rw [(deleteFirst_none_iff id db.notes).mpr h]
  · rintro ⟨n, hn, hid⟩
    unfold Repo.Delete
    cases hd : deleteFirst id db.notes with
    | none => exact absurd hid ((deleteFirst_none_iff id db.notes).mp hd n hn)
    | some l2 =>
      obtain ⟨pre, m, post, h1, h2, h3, h4⟩ := deleteFirst_some_spec id db.notes l2 hd
      refine ⟨{ db with notes := l2 }, rfl, ?_, ?_⟩
      · rw [h4, h1]
        simp [List.length_append]
        omega
      · have hpw := hwf.2
        rw [h1] at hpw
        have hpw2 : (m :: post).Pairwise (fun a b => a.id ≠ b.id) :=
          (List.pairwise_append.mp hpw).2.1
        have hpost : ∀ x ∈ post, x.id ≠ id := by
          intro x hx hxid
          exact (List.pairwise_cons.mp hpw2).1 x hx (h2.trans hxid.symm)
        have h5 : deleteFirst id l2 = none := by
          apply (deleteFirst_none_iff id l2).mpr
          intro x hx
          rw [h4] at hx
          rcases List.mem_append.mp hx with hxp | hxq
          · exact h3 x hxp
          · exact hpost x hxq
        simp [h5]

/-- Witness for C7: a missing id and a present id against `wDB`. -/
theorem delete_semantics_witness :
    (Repo.Delete wDB 99 = Except.error "note not found") ∧
    (∃ db', Repo.Delete wDB 1 = Except.ok db' ∧
      db'.notes.length + 1 = wDB.notes.length ∧
      Repo.Delete db' 1 = Except.error "note not found") :=
  ⟨(delete_semantics wDB 99 (by decide)).1 (by decide),
    (delete_semantics wDB 1 (by decide)).2 ⟨wNoteA, by decide, by decide⟩⟩

/-! ### C6 -/

/-- C6: the store invariant — non-empty normalized category, non-empty
content, `createdAt = updatedAt`, store-assigned id and timestamps — holds
after create (which appends exactly the new note, leaving existing notes
untouched) and after delete (which only removes). -/
theorem persisted_note_invariants (db : DB) (input : CreateNoteInput) (id : Nat)
    (hwf : db.WF) :
    ((Service.Create db input).2).WF ∧
    (∀ n db', Service.Create db input = (Except.ok n, db') →
      n.id = db.nextId ∧ n.createdAt = db.now ∧ n.updatedAt = db.now ∧
      db'.notes = db.notes ++ [n]) ∧
    (∀ db', Repo.Delete db id = Except.ok db' → db'.WF ∧ db'.notes.Sublist db.notes) := by
  refine ⟨?_, ?_, ?_⟩
  · rcases h : Service.Create db input with ⟨e | n, db'⟩
    · have hst : (Service.Create db input).2 = db :=
        create_err_state db input (by rw [h]; rfl)
      rw [h] at hst
      simp only at hst
      show db'.WF
      rw [hst]
      exact hwf
    · obtain ⟨hn, hdb, hcat, hcon⟩ := create_ok_spec db input n db' h
      show db'.WF
      rw [hdb]
      constructor
      · intro m hm
        rcases List.mem_append.mp hm with hmo | hmn
        · obtain ⟨c1, c2, c3, c4⟩ := hwf.1 m hmo
          exact ⟨c1, c2, c3, by simpa using Nat.lt_succ_of_lt c4⟩
        · obtain rfl : m = n := List.mem_singleton.mp hmn
          rw [hn]
          refine ⟨List.isEmpty_eq_false.mp hcat, ?_, rfl, Nat.lt_succ_self _⟩
          intro hic
          have hic2 : input.content = [] := hic
          rw [hic2] at hcon
          simp [trimSpace] at hcon
      · apply List.pairwise_append.mpr
        refine ⟨hwf.2, List.pairwise_singleton _ _, ?_⟩
        intro a ha b hb
        obtain rfl : b = n := List.mem_singleton.mp hb
        rw [hn]
        exact Nat.ne_of_lt (hwf.1 a ha).2.2.2
  · intro n db' h
    obtain ⟨hn, hdb, -, -⟩ := create_ok_spec db input n db' h
    refine ⟨?_, ?_, ?_, ?_⟩
    · rw [hn]
    · rw [hn]
    · rw [hn]
    · rw [hdb]
  · intro db' h
    unfold Repo.Delete at h
    cases hd : deleteFirst id db.notes with
    | none => rw [hd] at h; simp at h
    | some l2 =>
      rw [hd] at h
      obtain rfl : ({ db with notes := l2 } : DB) = db' := by simpa using h
      obtain ⟨pre, m, post, h1, h2, h3, h4⟩ := deleteFirst_some_spec id db.notes l2 hd
      have hsub : l2.Sublist db.notes := by
        rw [h4, h1]
        exact List.Sublist.append (List.Sublist.refl pre) (List.sublist_cons_self m post)
      refine ⟨⟨?_, ?_⟩, hsub⟩
      · intro x hx
        exact hwf.1 x (hsub.subset hx)
      · exact List.Pairwise.sublist hsub hwf.2
  
/-- Witness for C6 against the concrete state `wDB`. -/
theorem persisted_note_invariants_witness :
    ((Service.Create wDB { category := ['a'], content := ['h'] }).2).WF ∧
    (∀ n db', Service.Create wDB { category := ['a'], content := ['h'] } = (Except.ok n, db') →
      n.id = wDB.nextId ∧ n.createdAt = wDB.now ∧ n.updatedAt = wDB.now ∧
      db'.notes = wDB.notes ++ [n]) ∧
    (∀ db', Repo.Delete wDB 1 = Except.ok db' → db'.WF ∧ db'.notes.Sublist wDB.notes) :=
  persisted_note_invariants wDB { category := ['a'], content := ['h'] } 1 (by decide)

/-! ### C8 -/

/-- C8: a created note fetched by its returned identifier comes back with
identical category, content and timestamps (the whole note is equal). -/
theorem create_findByID_roundtrip (db : DB) (input : CreateNoteInput) (n : Note) (db' : DB)
    (hwf : db.WF) (h : Service.Create db input = (Except.ok n, db')) :
    Repo.FindByID db' n.id = Except.ok n := by
  obtain ⟨hn, hdb, -, -⟩ := create_ok_spec db input n db' h
  rw [hdb]
  unfold Repo.FindByID
  have hnone : db.notes.find? (fun m => m.id == n.id) = none := by
    apply List.find?_eq_none.mpr
    intro x hx
    have hxlt := (hwf.1 x hx).2.2.2
    rw [hn]
    simp
    omega
  simp only [List.find?_append, hnone, Option.none_or]
  simp [List.find?]

/-- Witness for C8: the note created from content "  hi  " round-trips. -/
theorem create_findByID_roundtrip_witness :
    Repo.FindByID wDBC wNoteC.id = Except.ok wNoteC :=
  create_findByID_roundtrip wDB { category := ['a'], content := "  hi  ".data } wNoteC wDBC
    (by decide) rfl

/-! ### C3 -/

/-- A search_notes MCP request carrying an unparseable since date. -/
def wReqBadSince : McpSearchReq :=
  { query := some ['x'], category := [], since := "garbage".data, until_ := [], limit := none }

/-- C3 counterexample: at the MCP tool boundary an unparseable optional
`since` date is not silently ignored — the request fails with an error
result instead of succeeding without the filter. -/
theorem mcp_rejects_unparseable_since :
    parseRFC3339 "garbage".data = none ∧ parseYMD "garbage".data = none ∧
    handleSearchNotes wMatch wScore wDB wReqBadSince =
      Except.error "invalid 'since' date format: expected YYYY-MM-DD or RFC3339 format" :=
  ⟨rfl, rfl, rfl⟩

/-- C3 (amended): the HTTP boundary (REST search handler and HTMX search
fragment) silently drops an unparseable optional since/until and serves the
request as if the filter were not supplied; the MCP tool boundary
(search_notes, get_recent_notes) instead fails such a request with an
invalid-date error result. -/
theorem date_filter_boundary (tm : Str → Str → Bool) (sc : Str → Note → Nat) (db : DB) :
    (∀ r : HttpSearchReq, parseRFC3339 r.since = none → parseYMD r.since = none →
      Handler.SearchNotes tm sc db r = Handler.SearchNotes tm sc db { r with since := [] }) ∧
    (∀ r : HttpSearchReq, parseRFC3339 r.until_ = none → parseYMD r.until_ = none →
      Handler.SearchNotes tm sc db r = Handler.SearchNotes tm sc db { r with until_ := [] }) ∧
    (∀ r : HttpFragmentReq, parseYMD r.since = none →
      Handler.SearchFragment tm sc db r =
        Handler.SearchFragment tm sc db { r with since := [] }) ∧
    (∀ r : HttpFragmentReq, parseYMD r.until_ = none →
      Handler.SearchFragment tm sc db r =
        Handler.SearchFragment tm sc db { r with until_ := [] }) ∧
    (∀ (req : McpSearchReq) (qu : Str), req.query = some qu → req.since ≠ [] →
      parseDate req.since = none →
      handleSearchNotes tm sc db req =
        Except.error "invalid 'since' date format: expected YYYY-MM-DD or RFC3339 format") ∧
    (∀ (req : McpSearchReq) (qu : Str), req.query = some qu →
      (req.since.isEmpty = true ∨ (∃ t, parseDate req.since = some t)) →
      req.until_ ≠ [] → parseDate req.until_ = none →
      handleSearchNotes tm sc db req =
        Except.error "invalid 'until' date format: expected YYYY-MM-DD or RFC3339 format") ∧
    (∀ req : McpRecentReq, req.since ≠ [] → parseDate req.since = none →
      handleGetRecentNotes db req =
        Except.error "invalid 'since' date format: expected YYYY-MM-DD or RFC3339 format") := by
  refine ⟨fun r h1 h2 => ?_, fun r h1 h2 => ?_, fun r h1 => ?_, fun r h1 => ?_,
    fun req qu hq hs hpd => ?_, fun req qu hq hsok hu hpd => ?_, fun req hs hpd => ?_⟩
  · by_cases hse : r.since.isEmpty <;> simp [Handler.SearchNotes, hse, h1, h2]
  · by_cases hue : r.until_.isEmpty <;> simp [Handler.SearchNotes, hue, h1, h2]
  · by_cases hse : r.since.isEmpty <;> simp [Handler.SearchFragment, hse, h1]
  · by_cases hue : r.until_.isEmpty <;> simp [Handler.SearchFragment, hue, h1]
  · have hse : req.since.isEmpty = false := List.isEmpty_eq_false.mpr hs
    simp [handleSearchNotes, hq, hse, hpd]
  · have hue : req.until_.isEmpty = false := List.isEmpty_eq_false.mpr hu
    rcases hsok with hse | ⟨t, hpt⟩
    · simp [handleSearchNotes, hq, hse, hue, hpd]
    · by_cases hse2 : req.since.isEmpty
      · simp [handleSearchNotes, hq, hse2, hue, hpd]
      · simp [handleSearchNotes, hq, hse2, hpt, hue, hpd]
  · have hse : req.since.isEmpty = false := List.isEmpty_eq_false.mpr hs
    simp [handleGetRecentNotes, hse, hpd]

/-- Witness for C3 (amended) at concrete unparseable dates. -/
theorem date_filter_boundary_witness :
    (Handler.SearchNotes wMatch wScore wDB
        { q := ['x'], category := [], limit := [], offset := [],
          since := "bad".data, until_ := [] } =
      Handler.SearchNotes wMatch wScore wDB
        { q := ['x'], category := [], limit := [], offset := [],
          since := [], until_ := [] }) ∧
    (Handler.SearchFragment wMatch wScore wDB
        { q := ['x'], category := [], limit := [], since := "bad".data, until_ := [] } =
      Handler.SearchFragment wMatch wScore wDB
        { q := ['x'], category := [], limit := [], since := [], until_ := [] }) ∧
    (handleSearchNotes wMatch wScore wDB
        { query := some ['x'], category := [], since := [], until_ := "bad".data,
          limit := none } =
      Except.error "invalid 'until' date format: expected YYYY-MM-DD or RFC3339 format") ∧
    (handleGetRecentNotes wDB { limit := none, since := "bad".data } =
      Except.error "invalid 'since' date format: expected YYYY-MM-DD or RFC3339 format") :=
  ⟨(date_filter_boundary wMatch wScore wDB).1 _ (by decide) (by decide),
    (date_filter_boundary wMatch wScore wDB).2.2.1 _ (by decide),
    (date_filter_boundary wMatch wScore wDB).2.2.2.2.2.1 _ ['x'] rfl (Or.inl rfl)
      (by decide) (by decide),
    (date_filter_boundary wMatch wScore wDB).2.2.2.2.2.2 _ (by decide) (by decide)⟩

end Scratchpad
